import Mathlib

/-!
Verification of the `cvss` subsystem of the rustsec repository.

Shallow embedding of the CVSS metric model, vector-string parser and
score engine from the Rust sources:
  - `cvss/src/metric.rs`            (metric kind registry)
  - `cvss/src/v3/temporal/e.rs`     (Exploit Code Maturity)
  - `cvss/src/v3/environmental.rs`  (Environmental group, parser, score)
  - `cvss/src/v3/environmental/ar.rs` (Availability Requirement)
  - `cvss/src/v4/base/av.rs`        (v4 Attack Vector)
  - `cvss/src/v4/base/ac.rs`        (v4 Attack Complexity)

Floating point weights are embedded as exact rationals; Rust machine
floats at this granularity behave identically for the properties proved
here.  Strings are embedded as lists of characters (`List Char`),
obtained from Lean string literals through `String.data`.
-/

/-- Enum over all of the available metrics, from `cvss/src/metric.rs`
lines 30-72, in declaration order. -/
inductive MetricType
  | A
  | AC
  | AV
  | C
  | I
  | PR
  | S
  | UI
  | E
  | RL
  | RC
  | AR
  | IR
  | CR
  deriving DecidableEq, Fintype

/-- Modelled from the spec: the crate error enum (`lib.rs` is not under
`src/`).  Constructor set and payloads follow spec section 7 and the
variants constructed in the source files under `src/`. -/
inductive Error
  | UnknownMetric (name : List Char)
  | InvalidMetric (metricType : MetricType) (value : List Char)
  | InvalidComponent (component : List Char)
  | InvalidPrefix (pfx : List Char)
  | UnsupportedVersion (version : List Char)
  | MissingMandatoryMetric (name : List Char)
  deriving DecidableEq

deriving instance DecidableEq for Except

/-- Acronym of a metric kind, `MetricType::name`, `metric.rs` lines 76-93. -/
def MetricType.name : MetricType → List Char
  | MetricType.A => ("A").data
  | MetricType.AC => ("AC").data
  | MetricType.AV => ("AV").data
  | MetricType.C => ("C").data
  | MetricType.I => ("I").data
  | MetricType.PR => ("PR").data
  | MetricType.S => ("S").data
  | MetricType.UI => ("UI").data
  | MetricType.E => ("E").data
  | MetricType.RL => ("RL").data
  | MetricType.RC => ("RC").data
  | MetricType.AR => ("AR").data
  | MetricType.IR => ("IR").data
  | MetricType.CR => ("CR").data

/-- Registry lookup, `impl FromStr for MetricType`, `metric.rs` lines
125-143.  Note the arm for the input "RC" at line 137 of the source
returns `Self::RL`, embedded verbatim. -/
def MetricType.fromStr (s : List Char) : Except Error MetricType :=
  if s = ("A").data then Except.ok MetricType.A
  else if s = ("AC").data then Except.ok MetricType.AC
  else if s = ("AV").data then Except.ok MetricType.AV
  else if s = ("C").data then Except.ok MetricType.C
  else if s = ("I").data then Except.ok MetricType.I
  else if s = ("PR").data then Except.ok MetricType.PR
  else if s = ("S").data then Except.ok MetricType.S
  else if s = ("UI").data then Except.ok MetricType.UI
  else if s = ("E").data then Except.ok MetricType.E
  else if s = ("RL").data then Except.ok MetricType.RL
  else if s = ("RC").data then Except.ok MetricType.RL
  else if s = ("AR").data then Except.ok MetricType.AR
  else if s = ("IR").data then Except.ok MetricType.IR
  else if s = ("CR").data then Except.ok MetricType.CR
  else Except.error ( Error.UnknownMetric s)

/-- Exploit Code Maturity (E), CVSS v3.1 Temporal Metric Group,
`cvss/src/v3/temporal/e.rs` lines 25-59, in declaration order. -/
inductive ExploitCodeMaturity
  | NotDefined
  | High
  | Functional
  | ProofOfConcept
  | Unproven
  deriving DecidableEq, Fintype

/-- Default for `ExploitCodeMaturity`, `e.rs` lines 61-65. -/
def ExploitCodeMaturity.default : ExploitCodeMaturity :=
  ExploitCodeMaturity.NotDefined

/-- Weight of each Exploit Code Maturity level, `e.rs` lines 70-78. -/
def ExploitCodeMaturity.score : ExploitCodeMaturity → ℚ
  | ExploitCodeMaturity.NotDefined => 1.0
  | ExploitCodeMaturity.High => 1.0
  | ExploitCodeMaturity.Functional => 0.97
  | ExploitCodeMaturity.ProofOfConcept => 0.94
  | ExploitCodeMaturity.Unproven => 0.91

/-- Canonical code letter, `e.rs` lines 80-88. -/
def ExploitCodeMaturity.as_str : ExploitCodeMaturity → List Char
  | ExploitCodeMaturity.NotDefined => ("X").data
  | ExploitCodeMaturity.High => ("H").data
  | ExploitCodeMaturity.Functional => ("F").data
  | ExploitCodeMaturity.ProofOfConcept => ("P").data
  | ExploitCodeMaturity.Unproven => ("U").data

/-- Value parser, `impl FromStr for ExploitCodeMaturity`, `e.rs` lines
100-112. -/
def ExploitCodeMaturity.fromStr (s : List Char) : Except Error ExploitCodeMaturity :=
  if s = ("X").data then Except.ok ExploitCodeMaturity.NotDefined
  else if s = ("H").data then Except.ok ExploitCodeMaturity.High
  else if s = ("F").data then Except.ok ExploitCodeMaturity.Functional
  else if s = ("P").data then Except.ok ExploitCodeMaturity.ProofOfConcept
  else if s = ("U").data then Except.ok ExploitCodeMaturity.Unproven
  else Except.error ( Error.InvalidMetric MetricType.E s)

/-- Declaration index of each `ExploitCodeMaturity` variant; the derived
Rust `Ord` on a fieldless enum compares by declaration order. -/
def ExploitCodeMaturity.idx : ExploitCodeMaturity → Nat
  | ExploitCodeMaturity.NotDefined => 0
  | ExploitCodeMaturity.High => 1
  | ExploitCodeMaturity.Functional => 2
  | ExploitCodeMaturity.ProofOfConcept => 3
  | ExploitCodeMaturity.Unproven => 4

/-- Strict order of the derived `Ord` on `ExploitCodeMaturity`. -/
def ExploitCodeMaturity.lt (a b : ExploitCodeMaturity) : Bool :=
  a.idx < b.idx

/-- Availability Requirement (AR), CVSS v3.1 Environmental Metric Group,
`cvss/src/v3/environmental/ar.rs` lines 14-39, in declaration order. -/
inductive AvailabilityRequirement
  | NotDefined
  | High
  | Medium
  | Low
  deriving DecidableEq, Fintype

/-- Weight of each Availability Requirement level, `ar.rs` lines 50-57. -/
def AvailabilityRequirement.score : AvailabilityRequirement → ℚ
  | AvailabilityRequirement.NotDefined => 1.0
  | AvailabilityRequirement.High => 1.5
  | AvailabilityRequirement.Medium => 1.0
  | AvailabilityRequirement.Low => 0.5

/-- Canonical code letter, `ar.rs` lines 59-66. -/
def AvailabilityRequirement.as_str : AvailabilityRequirement → List Char
  | AvailabilityRequirement.NotDefined => ("X").data
  | AvailabilityRequirement.High => ("H").data
  | AvailabilityRequirement.Medium => ("M").data
  | AvailabilityRequirement.Low => ("L").data

/-- Value parser, `impl FromStr for AvailabilityRequirement`, `ar.rs`
lines 78-89. -/
def AvailabilityRequirement.fromStr (s : List Char) : Except Error AvailabilityRequirement :=
  if s = ("X").data then Except.ok AvailabilityRequirement.NotDefined
  else if s = ("H").data then Except.ok AvailabilityRequirement.High
  else if s = ("M").data then Except.ok AvailabilityRequirement.Medium
  else if s = ("L").data then Except.ok AvailabilityRequirement.Low
  else Except.error ( Error.InvalidMetric MetricType.AR s)

/-- Attack Complexity (AC), CVSS v4.0 Base Metric Group,
`cvss/src/v4/base/ac.rs` lines 26-51, in declaration order. -/
inductive AttackComplexity
  | High
  | Low
  deriving DecidableEq, Fintype

/-- Weight of each Attack Complexity level, `ac.rs` lines 63-68. -/
def AttackComplexity.score : AttackComplexity → ℚ
  | AttackComplexity.High => 0.44
  | AttackComplexity.Low => 0.77

/-- Canonical code letter, `ac.rs` lines 70-75. -/
def AttackComplexity.as_str : AttackComplexity → List Char
  | AttackComplexity.High => ("H").data
  | AttackComplexity.Low => ("L").data

/-- Value parser, `impl FromStr for AttackComplexity`, `ac.rs` lines
87-96. -/
def AttackComplexity.fromStr (s : List Char) : Except Error AttackComplexity :=
  if s = ("H").data then Except.ok AttackComplexity.High
  else if s = ("L").data then Except.ok AttackComplexity.Low
  else Except.error ( Error.InvalidMetric MetricType.AC s)

/-- Attack Vector (AV), CVSS v4.0 Base Metric Group,
`cvss/src/v4/base/av.rs` lines 20-67, in declaration order. -/
inductive AttackVector
  | Physical
  | Local
  | Adjacent
  | Network
  deriving DecidableEq, Fintype

/-- Weight of each Attack Vector level, `av.rs` lines 73-80. -/
def AttackVector.score : AttackVector → ℚ
  | AttackVector.Physical => 0.20
  | AttackVector.Local => 0.55
  | AttackVector.Adjacent => 0.62
  | AttackVector.Network => 0.85

/-- Canonical code letter, `av.rs` lines 82-89. -/
def AttackVector.as_str : AttackVector → List Char
  | AttackVector.Physical => ("P").data
  | AttackVector.Local => ("L").data
  | AttackVector.Adjacent => ("A").data
  | AttackVector.Network => ("N").data

/-- Value parser, `impl FromStr for AttackVector`, `av.rs` lines 101-112. -/
def AttackVector.fromStr (s : List Char) : Except Error AttackVector :=
  if s = ("P").data then Except.ok AttackVector.Physical
  else if s = ("L").data then Except.ok AttackVector.Local
  else if s = ("A").data then Except.ok AttackVector.Adjacent
  else if s = ("N").data then Except.ok AttackVector.Network
  else Except.error ( Error.InvalidMetric MetricType.AV s)

/-- Declaration index of each `AttackVector` variant; the derived Rust
`Ord` on a fieldless enum compares by declaration order. -/
def AttackVector.idx : AttackVector → Nat
  | AttackVector.Physical => 0
  | AttackVector.Local => 1
  | AttackVector.Adjacent => 2
  | AttackVector.Network => 3

/-- Strict order of the derived `Ord` on `AttackVector`. -/
def AttackVector.lt (a b : AttackVector) : Bool :=
  a.idx < b.idx

/-- Modelled from the spec: the v3 Base `Scope` metric (`v3/base` is not
under `src/`); only the `is_changed` capability used by
`Environmental::is_scope_changed` is needed. -/
inductive Scope
  | Unchanged
  | Changed
  deriving DecidableEq

/-- Scope change test used by the Environmental scoring methods. -/
def Scope.is_changed : Scope → Bool
  | Scope.Unchanged => false
  | Scope.Changed => true

/-- Environmental metric aggregate, `cvss/src/v3/environmental.rs`.

The struct declared at lines 36-42 of the source lists only
`minor_version` and `rl`, yet the methods of the same `impl` reference
the fields `av`, `ac`, `ui`, `pr`, `s`, `c`, `i`, `a` (lines 92-137) and
`from_str` assigns the field `e` (line 214); this embedding carries the
full field set those methods require.  Modelled from the spec: the v3
Base metric value types and the Remediation Level type are not under
`src/`, and the methods use those fields only through their numeric
`score()` weights, so each such field stores the weight as a rational
(`pr` stores the pair of scope-unchanged and scope-changed weights used
by `scoped_score`). -/
structure Environmental where
  minor_version : Nat
  rl : Option ℚ
  av : Option ℚ
  ac : Option ℚ
  ui : Option ℚ
  pr : Option (ℚ × ℚ)
  s : Option Scope
  c : Option ℚ
  i : Option ℚ
  a : Option ℚ
  e : Option ExploitCodeMaturity
  deriving DecidableEq

/-- Default `Environmental` value (derived `Default`: zero minor version,
every metric absent). -/
def Environmental.default : Environmental :=
  { minor_version := 0, rl := none, av := none, ac := none, ui := none,
    pr := none, s := none, c := none, i := none, a := none, e := none }

/-- Scope test, `Environmental::is_scope_changed`, `environmental.rs`
lines 135-137. -/
def Environmental.is_scope_changed (env : Environmental) : Bool :=
  (env.s.map Scope.is_changed).getD false

/-- Scope-adjusted Privileges Required weight,
`PrivilegesRequired::scoped_score` as used at `environmental.rs` line 98:
the pair holds the scope-unchanged and scope-changed weight. -/
def scoped_score (p : ℚ × ℚ) (scope_changed : Bool) : ℚ :=
  if scope_changed then p.2 else p.1

/-- Exploitability sub-score, `Environmental::exploitability`,
`environmental.rs` lines 92-102: every absent metric contributes 0.0. -/
def Environmental.exploitability (env : Environmental) : ℚ :=
  let av_score := env.av.getD 0
  let ac_score := env.ac.getD 0
  let ui_score := env.ui.getD 0
  let pr_score := (env.pr.map (fun pr => scoped_score pr env.is_scope_changed)).getD 0
  8.22 * av_score * ac_score * pr_score * ui_score

/-- Impact sub-score, `Environmental::impact`, `environmental.rs` lines
116-121: `1.0 - ((1.0 - c)*(1.0 - i)*(1.0 - a)).abs()` with every absent
metric contributing 0.0; no CR/IR/AR multiplier and no Base fallback
appears in the source. -/
def Environmental.impact (env : Environmental) : ℚ :=
  let c_score := env.c.getD 0
  let i_score := env.i.getD 0
  let a_score := env.a.getD 0
  1 - |(1 - c_score) * (1 - i_score) * (1 - a_score)|

/-- Scope-scaled impact, the `iss_scoped` local of `Environmental::score`,
`environmental.rs` lines 65-69. -/
def Environmental.iss_scoped (env : Environmental) : ℚ :=
  if env.is_scope_changed = false then
    6.42 * env.impact
  else
    (7.52 * (env.impact - 0.029)) - (3.25 * (env.impact - 0.02) ^ (15 : ℕ))

/-- Unrounded score, the `score` local of `Environmental::score`,
`environmental.rs` lines 71-77. -/
def Environmental.rawScore (env : Environmental) : ℚ :=
  if env.iss_scoped ≤ 0 then 0
  else if env.is_scope_changed = false then
    min (env.iss_scoped + env.exploitability) 10
  else
    min (1.08 * (env.iss_scoped + env.exploitability)) 10

/-- Modelled from the spec: the score rounding rule of spec section 4.6
(`Score::roundup`, `v3/score.rs`, is not under `src/`): scale by ten,
take the ceiling, divide by ten, rounding up to the nearest multiple of
one tenth. -/
def roundup (x : ℚ) : ℚ :=
  ((⌈x * 10⌉ : ℤ) : ℚ) / 10

/-- Final Environmental score, `Environmental::score`, `environmental.rs`
lines 61-80: the raw score passed through the rounding rule. -/
def Environmental.score (env : Environmental) : ℚ :=
  roundup env.rawScore

/-- Modelled from the spec: the modified impact sub-score formula the
spec (section 4.5) states for the Environmental group, with the modified
C/I/A weights multiplied by the CR/IR/AR requirement weights. -/
def specModifiedISS (mc mi ma cr ir ar : ℚ) : ℚ :=
  min 1 (1 - (1 - mc * cr) * (1 - mi * ir) * (1 - ma * ar))

/-- Splitting of a character list at every occurrence of a separator,
the embedding of `str::split` as used by `Environmental::from_str`; like
the Rust iterator it yields one (possibly empty) piece more than the
number of separators, and yields a single piece for input without the
separator. -/
def splitOnChar (sep : Char) : List Char → List (List Char)
  | [] => [[]]
  | ch :: rest =>
    let r := splitOnChar sep rest
    if ch = sep then [] :: r
    else
      match r with
      | h :: t => (ch :: h) :: t
      | [] => [[ch]]

/-- Decomposition of one vector component into its id and value,
`environmental.rs` lines 164-182: a component must contain exactly one
separating colon, anything else is an `InvalidComponent` error carrying
the component text. -/
def parseComponent (component : List Char) : Except Error (List Char × List Char) :=
  match splitOnChar ':' component with
  | [id, value] => Except.ok (id, value)
  | _ => Except.error ( Error.InvalidComponent component)

/-- Collection of all component decompositions, the
`collect::<Result<Vec<_>>>()` at `environmental.rs` line 183:
left-to-right with the first error short-circuiting. -/
def collectComponents : List (List Char) → Except Error (List (List Char × List Char))
  | [] => Except.ok []
  | comp :: rest =>
    match parseComponent comp with
    | Except.error e => Except.error e
    | Except.ok p =>
      match collectComponents rest with
      | Except.error e => Except.error e
      | Except.ok ps => Except.ok (p :: ps)

/-- Outcome of `Environmental::from_str`.  The source `match` over the
metric kind at `environmental.rs` lines 213-215 has an arm only for
`MetricType::E` although the scrutinee enum has fourteen variants; the
`undefinedArm` constructor records reaching one of the thirteen arms the
source does not define. -/
inductive ParseOutcome
  | ok (env : Environmental)
  | err (e : Error)
  | undefinedArm (t : MetricType)
  deriving DecidableEq

/-- Metric loop of `Environmental::from_str`, `environmental.rs` lines
209-216: each remaining component has its id and value ASCII-uppercased,
the id is resolved through the metric kind registry (an unknown id
propagates `UnknownMetric`), and the only arm present assigns the E
metric value, a later occurrence overwriting an earlier one. -/
def Environmental.applyComponents :
    Environmental → List (List Char × List Char) → ParseOutcome
  | env, [] => ParseOutcome.ok env
  | env, (id, value) :: rest =>
    let idUp := id.map Char.toUpper
    let valueUp := value.map Char.toUpper
    match MetricType.fromStr idUp with
    | Except.error e => ParseOutcome.err e
    | Except.ok MetricType.E =>
      match ExploitCodeMaturity.fromStr valueUp with
      | Except.error e => ParseOutcome.err e
      | Except.ok v => Environmental.applyComponents { env with e := some v } rest
    | Except.ok t => ParseOutcome.undefinedArm t

/-- Vector-string parser, `impl FromStr for Environmental`,
`environmental.rs` lines 161-219: split on the slash, decompose every
component, demand the literal prefix CVSS (no case folding) and a
supported version 3.0 or 3.1, then run the metric loop over the
remaining components starting from the default aggregate with the parsed
minor version. -/
def Environmental.fromStr (s : List Char) : ParseOutcome :=
  match collectComponents (splitOnChar '/' s) with
  | Except.error e => ParseOutcome.err e
  | Except.ok componentVec =>
    match componentVec with
    | [] => ParseOutcome.err ( Error.InvalidPrefix s)
    | (id, version_string) :: rest =>
      if id = ("CVSS").data then
        if version_string = ("3.0").data then
          Environmental.applyComponents
            { Environmental.default with minor_version := 0 } rest
        else if version_string = ("3.1").data then
          Environmental.applyComponents
            { Environmental.default with minor_version := 1 } rest
        else ParseOutcome.err ( Error.UnsupportedVersion version_string)
      else ParseOutcome.err ( Error.InvalidPrefix id)

/-- Shape test for a vector component: true when the component does not
split into exactly an id and a value at a single colon. -/
def badShape (c : List Char) : Bool :=
  !((splitOnChar ':' c).length = 2)

/-- C1: parsing the canonical acronym of the Report Confidence kind does
not yield RC back: `MetricType::from_str(MetricType::name(RC))` evaluates
to `Ok(RL)` (source arm `"RC" => Ok(Self::RL)`, `metric.rs` line 137),
so the acronym-to-kind mapping is not a bijection at RC. -/
theorem metricType_fromStr_name_rc_bug :
    MetricType.fromStr (MetricType.name MetricType.RC) = Except.ok MetricType.RL ∧
      MetricType.RL ≠ MetricType.RC := by
  decide

/-- Roundtrip of the registry at every kind other than RC; at RC the
roundtrip fails.  Supporting fact for the C1 analysis. -/
theorem metricType_fromStr_name_other_kinds :
    ∀ k : MetricType, k ≠ MetricType.RC →
      MetricType.fromStr (MetricType.name k) = Except.ok k := by
  decide

/-- Closed instance of `metricType_fromStr_name_other_kinds` at the kind AV. -/
theorem metricType_fromStr_name_other_kinds_witness :
    MetricType.fromStr (MetricType.name MetricType.AV) = Except.ok MetricType.AV :=
  metricType_fromStr_name_other_kinds MetricType.AV (by decide)

/-- C3 counterexample: in the derived total order of the Exploit Code
Maturity metric value type, `High < Functional` holds, yet
`weight(High) = 1.0 > 0.97 = weight(Functional)`: the order is not
weight-monotone for every metric value type. -/
theorem exploitCodeMaturity_order_not_weight_monotone :
    ExploitCodeMaturity.lt ExploitCodeMaturity.High ExploitCodeMaturity.Functional = true ∧
      ¬ ExploitCodeMaturity.score ExploitCodeMaturity.High ≤
          ExploitCodeMaturity.score ExploitCodeMaturity.Functional := by
  constructor
  · decide
  · norm_num [ExploitCodeMaturity.score]

/-- C3 amended: for the v4 Attack Vector type the derived total order is
weight-monotone (`a < b` implies `weight(a) <= weight(b)`) and runs
`Physical < Local < Adjacent < Network`; for the temporal Exploit Code
Maturity type the derived order is declaration order with Not Defined
first and the weights are antitone along it (severity-decreasing), so
weight-monotonicity does not hold for every metric value type. -/
theorem attackVector_order_weight_monotone :
    (∀ a b : AttackVector, AttackVector.lt a b = true →
        AttackVector.score a ≤ AttackVector.score b) ∧
      AttackVector.lt AttackVector.Physical AttackVector.Local = true ∧
      AttackVector.lt AttackVector.Local AttackVector.Adjacent = true ∧
      AttackVector.lt AttackVector.Adjacent AttackVector.Network = true ∧
      (∀ a b : ExploitCodeMaturity, ExploitCodeMaturity.lt a b = true →
        ExploitCodeMaturity.score b ≤ ExploitCodeMaturity.score a) := by
  refine ⟨?_, by decide, by decide, by decide, ?_⟩
  · intro a b h
    cases a <;> cases b <;> simp_all [AttackVector.lt, AttackVector.idx] <;>
      norm_num [AttackVector.score]
  · intro a b h
    cases a <;> cases b <;> simp_all [ExploitCodeMaturity.lt, ExploitCodeMaturity.idx] <;>
      norm_num [ExploitCodeMaturity.score]

/-- Closed instance of `attackVector_order_weight_monotone`: the weight of
Physical is at most the weight of Local. -/
theorem attackVector_order_weight_monotone_witness :
    AttackVector.score AttackVector.Physical ≤ AttackVector.score AttackVector.Local :=
  attackVector_order_weight_monotone.1 AttackVector.Physical AttackVector.Local (by decide)

/-- C6: for each of the three concrete metric value types in the sources
(Exploit Code Maturity, Availability Requirement, v4 Attack Complexity),
parsing succeeds exactly on the canonical code letters: the roundtrip
`parse(as_str(v)) = Ok(v)` holds for every variant, any successful parse
input is the canonical code of the returned variant, and every other
input yields `InvalidMetric` carrying the metric kind and the offending
value. -/
theorem metric_value_parse_exact :
    ((∀ v : ExploitCodeMaturity, ExploitCodeMaturity.fromStr v.as_str = Except.ok v) ∧
      (∀ s v, ExploitCodeMaturity.fromStr s = Except.ok v → s = v.as_str) ∧
      (∀ s, (∀ v : ExploitCodeMaturity, s ≠ v.as_str) →
        ExploitCodeMaturity.fromStr s = Except.error ( Error.InvalidMetric MetricType.E s))) ∧
    ((∀ v : AvailabilityRequirement, AvailabilityRequirement.fromStr v.as_str = Except.ok v) ∧
      (∀ s v, AvailabilityRequirement.fromStr s = Except.ok v → s = v.as_str) ∧
      (∀ s, (∀ v : AvailabilityRequirement, s ≠ v.as_str) →
        AvailabilityRequirement.fromStr s = Except.error ( Error.InvalidMetric MetricType.AR s))) ∧
    ((∀ v : AttackComplexity, AttackComplexity.fromStr v.as_str = Except.ok v) ∧
      (∀ s v, AttackComplexity.fromStr s = Except.ok v → s = v.as_str) ∧
      (∀ s, (∀ v : AttackComplexity, s ≠ v.as_str) →
        AttackComplexity.fromStr s = Except.error ( Error.InvalidMetric MetricType.AC s))) := by
  refine ⟨⟨by decide, ?_, ?_⟩, ⟨by decide, ?_, ?_⟩, ⟨by decide, ?_, ?_⟩⟩
  · intro s v h
    unfold ExploitCodeMaturity.fromStr at h
    split_ifs at h <;> simp_all <;> subst h <;> rfl
  · intro s h
    unfold ExploitCodeMaturity.fromStr
    have h1 := h ExploitCodeMaturity.NotDefined
    have h2 := h ExploitCodeMaturity.High
    have h3 := h ExploitCodeMaturity.Functional
    have h4 := h ExploitCodeMaturity.ProofOfConcept
    have h5 := h ExploitCodeMaturity.Unproven
    simp_all [ExploitCodeMaturity.as_str]
  · intro s v h
    unfold AvailabilityRequirement.fromStr at h
    split_ifs at h <;> simp_all <;> subst h <;> rfl
  · intro s h
    unfold AvailabilityRequirement.fromStr
    have h1 := h AvailabilityRequirement.NotDefined
    have h2 := h AvailabilityRequirement.High
    have h3 := h AvailabilityRequirement.Medium
    have h4 := h AvailabilityRequirement.Low
    simp_all [AvailabilityRequirement.as_str]
  · intro s v h
    unfold AttackComplexity.fromStr at h
    split_ifs at h <;> simp_all <;> subst h <;> rfl
  · intro s h
    unfold AttackComplexity.fromStr
    have h1 := h AttackComplexity.High
    have h2 := h AttackComplexity.Low
    simp_all [AttackComplexity.as_str]

/-- Closed instance of `metric_value_parse_exact`: the letter Q is no
canonical Exploit Code Maturity code, so parsing it yields
`InvalidMetric` with kind E and value Q. -/
theorem metric_value_parse_exact_witness :
    ExploitCodeMaturity.fromStr (("Q").data) =
      Except.error ( Error.InvalidMetric MetricType.E (("Q").data)) :=
  metric_value_parse_exact.1.2.2 (("Q").data) (by decide)

/-- C7: the Not Defined level is the default of the Exploit Code Maturity
metric and its weight 1.0 equals the weight of the highest-severity
defined level High; the full table is X=1.0, H=1.0, F=0.97, P=0.94,
U=0.91, every weight is at most the weight of High, and a Not Defined
(absent) E metric multiplies the temporal product neutrally. -/
theorem exploitCodeMaturity_notDefined_neutral :
    ExploitCodeMaturity.default = ExploitCodeMaturity.NotDefined ∧
      ExploitCodeMaturity.score ExploitCodeMaturity.NotDefined = 1.0 ∧
      ExploitCodeMaturity.score ExploitCodeMaturity.High = 1.0 ∧
      ExploitCodeMaturity.score ExploitCodeMaturity.Functional = 0.97 ∧
      ExploitCodeMaturity.score ExploitCodeMaturity.ProofOfConcept = 0.94 ∧
      ExploitCodeMaturity.score ExploitCodeMaturity.Unproven = 0.91 ∧
      (∀ v : ExploitCodeMaturity,
        ExploitCodeMaturity.score v ≤ ExploitCodeMaturity.score ExploitCodeMaturity.High) ∧
      (∀ b rl rc : ℚ,
        b * ExploitCodeMaturity.score ExploitCodeMaturity.default * rl * rc = b * rl * rc) := by
  refine ⟨rfl, rfl, rfl, rfl, rfl, rfl, ?_, ?_⟩
  · intro v
    cases v <;> norm_num [ExploitCodeMaturity.score]
  · intro b rl rc
    have h : ExploitCodeMaturity.score ExploitCodeMaturity.default = 1 := by
      norm_num [ExploitCodeMaturity.default, ExploitCodeMaturity.score]
    rw [h, mul_one]

/-- C2: the Environmental impact sub-score in the source ignores CR, IR
and AR entirely (the aggregate has no such fields) and substitutes 0.0
for every absent modified metric instead of falling back to the Base
value: with every modified metric absent the code computes an impact of
0, while the formula the claim states yields 0.56 for a Base
confidentiality weight of 0.56 with all requirement multipliers Not
Defined (1.0). -/
theorem environmental_impact_ignores_requirements :
    Environmental.impact Environmental.default = 0 ∧
      specModifiedISS 0.56 0 0 1 1 1 = 0.56 ∧
      Environmental.impact Environmental.default ≠ specModifiedISS 0.56 0 0 1 1 1 := by
  refine ⟨?_, ?_, ?_⟩ <;>
    norm_num [Environmental.impact, Environmental.default, specModifiedISS]

/-- C4: for every Environmental aggregate, when the scope-adjusted impact
sub-score is at most zero the score is exactly zero regardless of the
exploitability sub-score, and otherwise the combined value (with the
1.08 factor in the scope-changed branch) is clamped by `min` with 10
before the rounding rule is applied. -/
theorem environmental_score_zero_and_clamp (env : Environmental) :
    (env.iss_scoped ≤ 0 → env.score = 0) ∧
      (0 < env.iss_scoped →
        env.score =
          roundup (min
            (if env.is_scope_changed then
              1.08 * (env.iss_scoped + env.exploitability)
            else env.iss_scoped + env.exploitability) 10)) := by
  constructor
  · intro h
    have hraw : env.rawScore = 0 := by
      unfold Environmental.rawScore
      rw [if_pos h]
    unfold Environmental.score
    rw [hraw]
    norm_num [roundup]
  · intro h
    have hn : ¬ env.iss_scoped ≤ 0 := not_le.mpr h
    unfold Environmental.score Environmental.rawScore
    rw [if_neg hn]
    cases hb : env.is_scope_changed <;> simp [hb]

/-- Closed instance of `environmental_score_zero_and_clamp`: the default
aggregate (every metric absent) has scope-adjusted impact 0, so its
score is exactly 0. -/
theorem environmental_score_zero_and_clamp_witness :
    Environmental.score Environmental.default = 0 :=
  (environmental_score_zero_and_clamp Environmental.default).1 (by
    norm_num [Environmental.iss_scoped, Environmental.is_scope_changed,
      Environmental.impact, Environmental.default])

/-- Components of bad shape are rejected as `InvalidComponent`. -/
theorem parseComponent_err (c : List Char) (h : badShape c = true) :
    parseComponent c = Except.error ( Error.InvalidComponent c) := by
  unfold badShape at h
  unfold parseComponent
  cases hs : splitOnChar ':' c with
  | nil => rfl
  | cons a t =>
    cases t with
    | nil => rfl
    | cons b t2 =>
      cases t2 with
      | nil => rw [hs] at h; simp at h
      | cons d t3 => rfl

/-- Components of good shape decompose successfully. -/
theorem parseComponent_ok_of_good (x : List Char) (h : badShape x = false) :
    ∃ p, parseComponent x = Except.ok p := by
  unfold badShape at h
  unfold parseComponent
  cases hs : splitOnChar ':' x with
  | nil => rw [hs] at h; simp at h
  | cons a t =>
    cases t with
    | nil => rw [hs] at h; simp at h
    | cons b t2 =>
      cases t2 with
      | nil => exact ⟨(a, b), rfl⟩
      | cons d t3 => rw [hs] at h; simp at h

/-- Collection stops with `InvalidComponent` at the first component of
bad shape. -/
theorem collectComponents_first_bad (l : List (List Char)) (c : List Char)
    (h : l.find? badShape = some c) :
    collectComponents l = Except.error ( Error.InvalidComponent c) := by
  induction l with
  | nil => simp [List.find?] at h
  | cons x xs ih =>
    by_cases hx : badShape x = true
    · have hxc : x = c := by
        rw [List.find?] at h
        rw [hx] at h
        simpa using h
      subst hxc
      simp [collectComponents, parseComponent_err x hx]
    · have hx2 : badShape x = false := by simpa using hx
      have h2 : xs.find? badShape = some c := by
        rw [List.find?] at h
        rw [hx2] at h
        simpa using h
      obtain ⟨p, hp⟩ := parseComponent_ok_of_good x hx2
      simp [collectComponents, hp, ih h2]

/-- Registry lookup of the acronym E. -/
theorem metricType_fromStr_e : MetricType.fromStr (("E").data) = Except.ok MetricType.E := by
  decide

/-- Uppercasing the acronym E is the identity. -/
theorem upper_e : (("E").data).map Char.toUpper = ("E").data := by decide

/-- A canonical Exploit Code Maturity code letter is uppercase already
and parses back to its variant. -/
theorem ecm_fromStr_upper_as_str (v : ExploitCodeMaturity) :
    ExploitCodeMaturity.fromStr (v.as_str.map Char.toUpper) = Except.ok v := by
  cases v <;> decide

/-- Metric loop outcome when the components start with valid E components
and then reach an id the registry rejects: the registry error
propagates. -/
theorem applyComponents_first_unknown (pre : List (List Char × List Char))
    (bid bval : List Char) (post : List (List Char × List Char)) (e : Error)
    (hbad : MetricType.fromStr (bid.map Char.toUpper) = Except.error e) :
    ∀ env, (∀ p ∈ pre, p.1.map Char.toUpper = ("E").data ∧
        ∃ v, ExploitCodeMaturity.fromStr (p.2.map Char.toUpper) = Except.ok v) →
      Environmental.applyComponents env (pre ++ (bid, bval) :: post) =
        ParseOutcome.err e := by
  induction pre with
  | nil =>
    intro env _
    simp [Environmental.applyComponents, hbad]
  | cons p ps ih =>
    intro env hpre
    obtain ⟨pid, pval⟩ := p
    obtain ⟨hid, v, hv⟩ := hpre (pid, pval) (by simp)
    simp only [List.cons_append, Environmental.applyComponents]
    rw [hid, metricType_fromStr_e]
    simp only []
    rw [hv]
    exact ih _ (fun q hq => hpre q (by simp [hq]))

/-- Uppercasing the letter E is the identity. -/
theorem char_upper_e : 'E'.toUpper = 'E' := by decide

/-- Registry lookup of the acronym E, character-list form. -/
theorem metricType_fromStr_e_chars :
    MetricType.fromStr ['E'] = Except.ok MetricType.E := by decide

/-- Metric loop outcome on a run of valid E components: it succeeds and
the last value assigned wins. -/
theorem applyComponents_all_e (vals : List ExploitCodeMaturity) (v : ExploitCodeMaturity) :
    ∀ env, Environmental.applyComponents env
        ((vals ++ [v]).map (fun w => (("E").data, w.as_str))) =
      ParseOutcome.ok { env with e := some v } := by
  induction vals with
  | nil =>
    intro env
    simp [Environmental.applyComponents, char_upper_e, metricType_fromStr_e_chars,
      ecm_fromStr_upper_as_str]
  | cons w ws ih =>
    intro env
    simp only [List.cons_append, List.map_cons, Environmental.applyComponents,
      List.map_nil, char_upper_e]
    rw [metricType_fromStr_e_chars]
    simp only []
    rw [ecm_fromStr_upper_as_str w]
    exact ih _

/-- Splitting never yields an empty list of pieces. -/
theorem splitOnChar_ne_nil (sep : Char) (l : List Char) : splitOnChar sep l ≠ [] := by
  induction l with
  | nil => simp [splitOnChar]
  | cons ch rest ih =>
    simp only [splitOnChar]
    by_cases h : ch = sep
    · simp [h]
    · simp only [if_neg h]
      cases hr : splitOnChar sep rest with
      | nil => simp
      | cons a t => simp

/-- Splitting a list without the separator yields that list as the single
piece. -/
theorem splitOnChar_no_sep (sep : Char) (l : List Char) (h : sep ∉ l) :
    splitOnChar sep l = [l] := by
  induction l with
  | nil => rfl
  | cons ch rest ih =>
    have hch : ¬ ch = sep := by
      intro hc
      exact h (by simp [hc])
    have hrest : sep ∉ rest := fun hm => h (by simp [hm])
    simp [splitOnChar, if_neg hch, ih hrest]

/-- Splitting distributes over a separator occurrence after a
separator-free part. -/
theorem splitOnChar_append_sep (sep : Char) (xs ys : List Char) (h : sep ∉ xs) :
    splitOnChar sep (xs ++ sep :: ys) = xs :: splitOnChar sep ys := by
  induction xs with
  | nil => simp [splitOnChar]
  | cons x xs ih =>
    have hx : ¬ x = sep := by
      intro hc
      exact h (by simp [hc])
    have hxs : sep ∉ xs := fun hm => h (by simp [hm])
    simp only [List.cons_append, splitOnChar, if_neg hx, List.append_eq, ih hxs]

/-- Splitting on the slash recovers the components of a slash-joined
vector string whose pieces are slash-free. -/
theorem splitOnChar_slash_flatten :
    ∀ (vs : List (List Char)), (∀ cmp ∈ vs, '/' ∉ cmp) →
      ∀ pre : List Char, '/' ∉ pre →
        splitOnChar '/' (pre ++ (vs.map (fun cmp => '/' :: cmp)).flatten) = pre :: vs := by
  intro vs
  induction vs with
  | nil =>
    intro _ pre hp
    simp [splitOnChar_no_sep '/' pre hp]
  | cons cmp cs ih =>
    intro hvs pre hp
    have h1 : '/' ∉ cmp := hvs cmp (by simp)
    have h2 : ∀ x ∈ cs, '/' ∉ x := fun x hx => hvs x (by simp [hx])
    rw [List.map_cons, List.flatten_cons, List.cons_append,
      show pre ++ '/' :: (cmp ++ (cs.map (fun c2 => '/' :: c2)).flatten) =
          pre ++ '/' :: (cmp ++ (cs.map (fun c2 => '/' :: c2)).flatten) from rfl,
      splitOnChar_append_sep '/' pre _ hp, ih h2 cmp h1]

/-- One E component decomposes into the id E and its value letter. -/
theorem parseComponent_e (v : ExploitCodeMaturity) :
    parseComponent ('E' :: ':' :: v.as_str) = Except.ok ((("E").data, v.as_str)) := by
  cases v <;> decide

/-- Collection succeeds on a list of E components. -/
theorem collectComponents_e_list (ws : List ExploitCodeMaturity) :
    collectComponents (ws.map (fun w => 'E' :: ':' :: w.as_str)) =
      Except.ok (ws.map (fun w => (("E").data, w.as_str))) := by
  induction ws with
  | nil => rfl
  | cons w ws ih => simp [collectComponents, parseComponent_e w, ih]

/-- Decomposition of the version header component. -/
theorem parseComponent_header :
    parseComponent ['C', 'V', 'S', 'S', ':', '3', '.', '1'] =
      Except.ok ((['C', 'V', 'S', 'S'], ['3', '.', '1'])) := by
  decide

/-- Collection of a header followed by E components. -/
theorem collectComponents_header (ws : List ExploitCodeMaturity) :
    collectComponents ((("CVSS:3.1").data) :: ws.map (fun w => 'E' :: ':' :: w.as_str)) =
      Except.ok (((("CVSS").data, ("3.1").data)) ::
        ws.map (fun w => (("E").data, w.as_str))) := by
  simp [collectComponents, parseComponent_header, collectComponents_e_list]

/-- The version header contains no slash. -/
theorem no_slash_header : '/' ∉ (("CVSS:3.1").data) := by decide

/-- An E component contains no slash. -/
theorem no_slash_e_comp (w : ExploitCodeMaturity) : '/' ∉ ('E' :: ':' :: w.as_str) := by
  cases w <;> decide

/-- C9: `Environmental::from_str` does not reject duplicated metric
components: a vector string made of the version header and any nonempty
run of E components (repetitions included) parses successfully, and the
aggregate keeps the value of the last occurrence.  The metric loop of
the source (environmental.rs lines 209-216) handles only the E metric,
so runs of E components are exactly the metric sequences the loop can
accept. -/
theorem environmental_fromStr_duplicates_last_wins
    (vals : List ExploitCodeMaturity) (v : ExploitCodeMaturity) :
    Environmental.fromStr
        ((("CVSS:3.1").data) ++
          (((vals ++ [v]).map (fun w => '/' :: 'E' :: ':' :: w.as_str)).flatten)) =
      ParseOutcome.ok
        { Environmental.default with
            minor_version := 1
            e := some v } := by
  have hm : ((vals ++ [v]).map (fun w => '/' :: 'E' :: ':' :: w.as_str)) =
      (((vals ++ [v]).map (fun w => 'E' :: ':' :: w.as_str)).map
        (fun cmp => '/' :: cmp)) := by
    rw [List.map_map]
    rfl
  have hhs : ∀ cmp ∈ (vals ++ [v]).map (fun w => 'E' :: ':' :: w.as_str),
      '/' ∉ cmp := by
    intro cmp hc
    obtain ⟨w, hw, hz⟩ := List.mem_map.mp hc
    rw [← hz]
    exact no_slash_e_comp w
  unfold Environmental.fromStr
  rw [hm, splitOnChar_slash_flatten _ hhs _ no_slash_header, collectComponents_header]
  exact applyComponents_all_e vals v _

/-- C5: the typed error behavior of `Environmental::from_str`: a
component of the split without exactly one colon makes parsing fail with
`InvalidComponent` carrying the first such component; if every component
is well shaped and the first id is not the literal CVSS the result is
`InvalidPrefix` with that id; with the prefix right and a version other
than 3.0 and 3.1 the result is `UnsupportedVersion` with that version;
and with prefix and version right, a metric component whose uppercased
id the registry rejects (every earlier metric component being a valid E
component, so that the loop reaches it) makes parsing fail with
`UnknownMetric` carrying the uppercased id. -/
theorem environmental_fromStr_typed_errors :
    (∀ s c, (splitOnChar '/' s).find? badShape = some c →
      Environmental.fromStr s = ParseOutcome.err ( Error.InvalidComponent c)) ∧
    (∀ s id ver rest,
      collectComponents (splitOnChar '/' s) = Except.ok ((id, ver) :: rest) →
      id ≠ ("CVSS").data →
      Environmental.fromStr s = ParseOutcome.err ( Error.InvalidPrefix id)) ∧
    (∀ s ver rest,
      collectComponents (splitOnChar '/' s) = Except.ok (((("CVSS").data), ver) :: rest) →
      ver ≠ ("3.0").data → ver ≠ ("3.1").data →
      Environmental.fromStr s = ParseOutcome.err ( Error.UnsupportedVersion ver)) ∧
    (∀ s ver pre bid bval post,
      collectComponents (splitOnChar '/' s) =
        Except.ok (((("CVSS").data), ver) :: (pre ++ (bid, bval) :: post)) →
      (ver = ("3.0").data ∨ ver = ("3.1").data) →
      (∀ p ∈ pre, p.1.map Char.toUpper = ("E").data ∧
        ∃ v, ExploitCodeMaturity.fromStr (p.2.map Char.toUpper) = Except.ok v) →
      MetricType.fromStr (bid.map Char.toUpper) =
        Except.error ( Error.UnknownMetric (bid.map Char.toUpper)) →
      Environmental.fromStr s =
        ParseOutcome.err ( Error.UnknownMetric (bid.map Char.toUpper))) := by
  refine ⟨?_, ?_, ?_, ?_⟩
  · intro s c h
    unfold Environmental.fromStr
    rw [collectComponents_first_bad _ _ h]
  · intro s id ver rest hok hid
    unfold Environmental.fromStr
    rw [hok]
    simp only []
    rw [if_neg hid]
  · intro s ver rest hok h0 h1
    have h0x : ¬ ver = ['3', '.', '0'] := by simpa using h0
    have h1x : ¬ ver = ['3', '.', '1'] := by simpa using h1
    unfold Environmental.fromStr
    rw [hok]
    simp only []
    rw [if_true, if_neg h0x, if_neg h1x]
  · intro s ver pre bid bval post hok hver hpre hbad
    unfold Environmental.fromStr
    rw [hok]
    simp only []
    rw [if_true]
    rcases hver with hv | hv
    · subst hv
      rw [if_pos (show ("3.0").data = ['3', '.', '0'] from by decide)]
      exact applyComponents_first_unknown pre bid bval post _ hbad _ hpre
    · subst hv
      rw [if_neg (show ¬ ("3.1").data = ['3', '.', '0'] from by decide),
        if_pos (show ("3.1").data = ['3', '.', '1'] from by decide)]
      exact applyComponents_first_unknown pre bid bval post _ hbad _ hpre

/-- Closed instances of `environmental_fromStr_typed_errors`, one per
error kind, at the malformed example inputs of the spec. -/
theorem environmental_fromStr_typed_errors_witness :
    Environmental.fromStr (("CVSS:3.1/AV").data) =
        ParseOutcome.err ( Error.InvalidComponent (("AV").data)) ∧
      Environmental.fromStr (("XX:3.1/E:F").data) =
        ParseOutcome.err ( Error.InvalidPrefix (("XX").data)) ∧
      Environmental.fromStr (("CVSS:2.0/E:F").data) =
        ParseOutcome.err ( Error.UnsupportedVersion (("2.0").data)) ∧
      Environmental.fromStr (("CVSS:3.1/E:F/ZZ:X").data) =
        ParseOutcome.err ( Error.UnknownMetric (("ZZ").data)) :=
  ⟨environmental_fromStr_typed_errors.1 (("CVSS:3.1/AV").data) (("AV").data) (by decide),
   environmental_fromStr_typed_errors.2.1 (("XX:3.1/E:F").data) (("XX").data)
     (("3.1").data) [((("E").data), (("F").data))] (by decide) (by decide),
   environmental_fromStr_typed_errors.2.2.1 (("CVSS:2.0/E:F").data) (("2.0").data)
     [((("E").data), (("F").data))] (by decide) (by decide) (by decide),
   environmental_fromStr_typed_errors.2.2.2 (("CVSS:3.1/E:F/ZZ:X").data) (("3.1").data)
     [((("E").data), (("F").data))] (("ZZ").data) (("X").data) []
     (by decide) (by decide) (by decide) (by decide)⟩

/-- C10: the metric loop of `Environmental::from_str` depends only on the
ASCII-uppercased form of each id and value (so lower-case metric
components parse to the same aggregate as their upper-case forms, as the
concrete pair of vectors shows), while the prefix is compared without
case folding, so a lower-case prefix is rejected with `InvalidPrefix`. -/
theorem environmental_fromStr_case_fold :
    (∀ (env : Environmental) (comps1 comps2 : List (List Char × List Char)),
        comps1.map (fun p => (p.1.map Char.toUpper, p.2.map Char.toUpper)) =
          comps2.map (fun p => (p.1.map Char.toUpper, p.2.map Char.toUpper)) →
        Environmental.applyComponents env comps1 =
          Environmental.applyComponents env comps2) ∧
      Environmental.fromStr (("CVSS:3.1/e:f").data) =
        Environmental.fromStr (("CVSS:3.1/E:F").data) ∧
      Environmental.fromStr (("CVSS:3.1/E:F").data) =
        ParseOutcome.ok
          { Environmental.default with
              minor_version := 1
              e := some ExploitCodeMaturity.Functional } ∧
      Environmental.fromStr (("cvss:3.1/E:F").data) =
        ParseOutcome.err ( Error.InvalidPrefix (("cvss").data)) := by
  refine ⟨?_, by decide, by decide, by decide⟩
  intro env comps1 comps2 h
  induction comps1 generalizing env comps2 with
  | nil =>
    cases comps2 with
    | nil => rfl
    | cons q qs => simp at h
  | cons p ps ih =>
    cases comps2 with
    | nil => simp at h
    | cons q qs =>
      obtain ⟨pid, pval⟩ := p
      obtain ⟨qid, qval⟩ := q
      simp only [List.map_cons, List.cons.injEq, Prod.mk.injEq] at h
      obtain ⟨⟨hid, hval⟩, htl⟩ := h
      simp only [Environmental.applyComponents]
      rw [hid, hval]
      cases hm : MetricType.fromStr (List.map Char.toUpper qid) with
      | error e => rfl
      | ok t =>
        cases t
        case E =>
          cases hv : ExploitCodeMaturity.fromStr (List.map Char.toUpper qval) with
          | error e => rfl
          | ok v => exact ih _ _ htl
        all_goals rfl

/-- Closed instance of `environmental_fromStr_case_fold`: the metric loop
treats the lower-case component e:f like E:F. -/
theorem environmental_fromStr_case_fold_witness :
    Environmental.applyComponents Environmental.default [((("e").data), (("f").data))] =
      Environmental.applyComponents Environmental.default [((("E").data), (("F").data))] :=
  environmental_fromStr_case_fold.1 Environmental.default
    [((("e").data), (("f").data))] [((("E").data), (("F").data))] (by decide)

/-- C8: the score rounding rule (round up to the nearest tenth through
the scaled ceiling computation) never rounds down and is idempotent on
the score range zero to ten. -/
theorem roundup_idempotent_and_up (x : ℚ) (h0 : 0 ≤ x) (h10 : x ≤ 10) :
    roundup (roundup x) = roundup x ∧ x ≤ roundup x := by
  constructor
  · unfold roundup
    rw [div_mul_cancel₀ _ (by norm_num : (10 : ℚ) ≠ 0), Int.ceil_intCast]
  · unfold roundup
    rw [le_div_iff₀ (by norm_num : (0 : ℚ) < 10)]
    exact Int.le_ceil (x * 10)

/-- Closed instance of `roundup_idempotent_and_up` at the value 9.3. -/
theorem roundup_idempotent_and_up_witness :
    roundup (roundup (93 / 10)) = roundup (93 / 10) ∧ (93 / 10 : ℚ) ≤ roundup (93 / 10) :=
  roundup_idempotent_and_up (93 / 10) (by norm_num) (by norm_num)
